import Mathlib

/-!
Verification development for the `rss_digest.py` pipeline (yms-reddit-digest).

The Python source is shallowly embedded: strings become `List Char` (so that
Python's substring operator `in` becomes a decidable matcher), timestamps become
integers (epoch seconds), the persisted `state.json` file becomes an explicit
value threaded through `run`, and the two external collaborators (feed
retrieval and e-mail dispatch) become parameters of `run` (the fetched entries
per feed, and a Boolean saying whether `send_email` succeeds or raises).
Python's `set` of seen ids is modelled as an insertion-ordered duplicate-free
list, and `list.sort(key=..., reverse=True)` as a stable merge sort with the
reversed key comparison.
-/

namespace YMS

/-- Python strings are embedded as lists of characters. -/
abbrev Str := List Char

/-- Literal helper: the character data of a Lean string literal. -/
def S (s : String) : Str := s.data

/-- Model of Python `str.lower()` (ASCII inputs). -/
def lowerStr (s : Str) : Str := s.map Char.toLower

/-- Boolean test that `n` is a prefix of `h` (character-wise equality). -/
def isPrefixB : Str → Str → Bool
  | [], _ => true
  | _ :: _, [] => false
  | a :: as, b :: bs => a == b && isPrefixB as bs

/-- Model of Python's substring operator `needle in hay`. -/
def substrB (needle : Str) : Str → Bool
  | [] => needle.isEmpty
  | b :: bs => isPrefixB needle (b :: bs) || substrB needle bs

/-! ## Classifier (`classify`, rss_digest.py lines 71-87) -/

/-- Feed-name keywords of the first (FINDOMME) classifier rule. -/
def findommeFeedKeys : List Str := [S "findomme", S "platform"]

/-- Title keywords of the first (FINDOMME) classifier rule. -/
def findommeTitleKeys : List Str :=
  [S "findomme", S "domme", S "loyalfans", S "fansly", S "onlyfans"]

/-- Title keywords of the second (PAYPIG) classifier rule. -/
def paypigTitleKeys : List Str := [S "paypig", S "pay pig", S "submissive", S "slave"]

/-- Feed-name keywords of the third (MEDIA) classifier rule. -/
def mediaFeedKeys : List Str := [S "media", S "manga"]

/-- Title keywords of the third (MEDIA) classifier rule. -/
def mediaTitleKeys : List Str :=
  [S "movie", S "movies", S "tv", S "television", S "manga", S "comic", S "comics", S "doujin"]

/-- Embedding of `classify(feed_name, title)`: first matching rule wins,
case-insensitive substring matching over the lowercased feed name and title. -/
def classify (feed_name title : Str) : String :=
  let f := lowerStr feed_name
  let t := lowerStr title
  if findommeFeedKeys.any (fun k => substrB k f) || findommeTitleKeys.any (fun k => substrB k t) then
    "FINDOMME"
  else if substrB (S "paypig") f || paypigTitleKeys.any (fun k => substrB k t) then
    "PAYPIG"
  else if mediaFeedKeys.any (fun k => substrB k f) || mediaTitleKeys.any (fun k => substrB k t) then
    "MEDIA"
  else
    "GENERAL"

/-! ## Scorer (`compute_score`, rss_digest.py lines 90-145) -/

/-- The high-intent keyword table of `compute_score`: (term, points, label). -/
def scoreKeywordTable : List (Str × Int × String) :=
  [ (S "beginner", 3, "beginner"),
    (S "starting", 2, "start"),
    (S "start", 2, "start"),
    (S "how do i", 3, "how-do-i"),
    (S "how to", 3, "how-to"),
    (S "advice", 2, "advice"),
    (S "help", 2, "help"),
    (S "platform", 3, "platform"),
    (S "loyalfans", 3, "loyalfans"),
    (S "teamviewer", 3, "teamviewer"),
    (S "boundar", 3, "boundaries"),
    (S "addict", 3, "addiction"),
    (S "safe", 2, "safe") ]

/-- Feed-name keywords of the `target-feed` bonus. -/
def targetFeedKeys : List Str := [S "paypig", S "findomme", S "platform", S "teamviewer"]

/-- Title keywords of the `megathread` penalty. -/
def megathreadKeys : List Str :=
  [S "megathread", S "weekly thread", S "daily thread", S "monthly thread"]

/-- One step of the keyword loop of `compute_score`: on a substring hit, add the
points and append the label. -/
def scoreStep (t : Str) (acc : Int × List String) (kw : Str × Int × String) : Int × List String :=
  if substrB kw.1 t then (acc.1 + kw.2.1, acc.2 ++ [kw.2.2]) else acc

/-- The question-mark bonus of `compute_score` (checked on the raw title). -/
def scoreQuestionStage (title : Str) : Int × List String :=
  if substrB (S "?") title then (4, ["question"]) else (0, [])

/-- The feed-relevance bonus of `compute_score` (`target-feed`). -/
def scoreFeedStage (f : Str) (sr : Int × List String) : Int × List String :=
  if targetFeedKeys.any (fun k => substrB k f) then (sr.1 + 2, sr.2 ++ ["target-feed"])
  else sr

/-- The recurring-thread penalty of `compute_score` (`megathread`). -/
def scoreMegaStage (t : Str) (sr : Int × List String) : Int × List String :=
  if megathreadKeys.any (fun k => substrB k t) then (sr.1 - 4, sr.2 ++ ["megathread"])
  else sr

/-- The age tier of `compute_score` (`fresh`/`recent`/unlabelled +1/`old`). -/
def scoreAgeStage (age_h : Nat) (sr : Int × List String) : Int × List String :=
  if age_h ≤ 2 then (sr.1 + 3, sr.2 ++ ["fresh"])
  else if age_h ≤ 6 then (sr.1 + 2, sr.2 ++ ["recent"])
  else if age_h ≤ 12 then (sr.1 + 1, sr.2)
  else if age_h ≥ 48 then (sr.1 - 3, sr.2 ++ ["old"])
  else sr

/-- The body of `compute_score` before the final `reasons[:6]` truncation:
score and full (untruncated) signal list, accumulated in source order
(question, keyword table, target feed, megathread, age tier). -/
def computeScoreFull (feed_name title : Str) (age_h : Nat) : Int × List String :=
  scoreAgeStage age_h
    (scoreMegaStage (lowerStr title)
      (scoreFeedStage (lowerStr feed_name)
        (scoreKeywordTable.foldl (scoreStep (lowerStr title)) (scoreQuestionStage title))))

/-- Embedding of `compute_score(feed_name, title, age_h)`: the untruncated score
together with the signal list truncated to its first 6 entries. -/
def compute_score (feed_name title : Str) (age_h : Nat) : Int × List String :=
  ((computeScoreFull feed_name title age_h).1, (computeScoreFull feed_name title age_h).2.take 6)

/-- Embedding of `suggested_opening(kind, title)`. -/
def suggested_opening (kind : String) (title : Str) : String :=
  let t := lowerStr title
  if kind = "FINDOMME" then
    if substrB (S "platform") t || substrB (S "loyalfans") t || substrB (S "onlyfans") t ||
        substrB (S "fansly") t then
      "Platform choice matters less than positioning, boundaries, and consistency, especially at the beginning."
    else if substrB (S "attract") t || substrB (S "get paypigs") t || substrB (S "marketing") t then
      "Most beginners focus on promotion first, but what really converts is clarity, authority, and a repeatable structure."
    else
      "A lot of beginner dommes underestimate how much paypig psychology drives everything, not just content or pricing."
  else if kind = "PAYPIG" then
    if substrB (S "addict") t || substrB (S "addiction") t || substrB (S "can’t stop") t then
      "If this feels compulsive rather than consensual fun, the first step is boundaries and a realistic plan, not shame."
    else if substrB (S "safe") t || substrB (S "boundar") t then
      "The safest way to approach this is to define boundaries first, then choose dynamics that respect them."
    else
      "Most beginners get stuck because they only see the fantasy part, but the real challenge is balance and structure."
  else if kind = "MEDIA" then
    "Mainstream references can be fun, but they usually simplify the dynamics, the real thing is more psychological than it looks."
  else
    "If you are new to this, focus on understanding the dynamics first, the rest becomes much clearer after that."

/-! ## Orchestrator data model (`run`, rss_digest.py lines 196-520) -/

/-- One feed entry as handed over by `feedparser` (the external source
collaborator): the `id`/`link`/`title` attributes as Python optionals, and the
creation instant already resolved by `parse_entry_time` (epoch seconds,
embedded as an integer). -/
structure Entry where
  idAttr : Option Str
  linkAttr : Option Str
  titleAttr : Option Str
  created : Int
deriving DecidableEq, Repr

/-- One collected item dict (rss_digest.py lines 230-242). -/
structure Item where
  id : Str
  created : Int
  age_hours : Nat
  feed : Str
  kind : String
  title : Str
  url : Str
  score : Int
  signals : List String
  opening : String
deriving DecidableEq, Repr

/-- The parsed view of `state.json` that `run` reads: `state.get("seen_ids", [])`
and `state.get("last_run_utc_ts")`. -/
structure StateJson where
  seen_ids : List Str
  last_run_utc_ts : Option Int
deriving DecidableEq, Repr

/-- Content of the state file on disk: either valid JSON (with its parsed
state) or unparseable bytes. -/
inductive StateFileContent where
  | corrupt
  | valid (j : StateJson)
deriving DecidableEq, Repr

/-- Model of `json.loads` on the state file: parses valid content, raises
`JSONDecodeError` on corrupt content. -/
def jsonLoads : StateFileContent → Except String StateJson
  | .corrupt => .error "JSONDecodeError"
  | .valid j => .ok j

/-- The empty dict `{}` seen through the two `state.get` defaults. -/
def emptyStateJson : StateJson := ⟨[], none⟩

/-- Embedding of `load_state()` (rss_digest.py lines 23-26): a missing file
yields the empty dict; a present file is parsed by `json.loads`, whose
exception propagates. -/
def load_state : Option StateFileContent → Except String StateJson
  | some c => jsonLoads c
  | none => .ok emptyStateJson

/-- The file system as `run` sees it: the state-file content (none = absent)
and the snapshot files already in the output directory (their item lists). -/
structure World where
  stateFile : Option StateFileContent
  outputFiles : List (List Item)
deriving DecidableEq, Repr

/-- The environment-variable surface read by `run`: `BACKFILL_HOURS` and
`MAX_ITEMS_PER_RUN`, already passed through `int(...)`. -/
structure Env where
  backfillHours : Int
  maxItemsPerRun : Int
deriving DecidableEq, Repr

/-- How a run ends: normally, by the `json.loads` exception during loading, or
by the `send_email` exception during dispatching. -/
inductive RunOutcome where
  | ok
  | loadError
  | dispatchError
deriving DecidableEq, Repr

/-- Python truthiness of an optional string: `None` and `""` are falsy. -/
def pyTruthy : Option Str → Bool
  | none => false
  | some s => !s.isEmpty

/-- Python `a or b` on optional strings. -/
def pyOr (a b : Option Str) : Option Str := if pyTruthy a then a else b

/-- Whitespace stripped by Python's `str.strip()`. -/
def pyWhitespace : List Char := [' ', '\t', '\n', '\r', '\x0b', '\x0c']

/-- Model of Python `str.strip()`. -/
def pyStrip (s : Str) : Str :=
  ((s.dropWhile (pyWhitespace.contains ·)).reverse.dropWhile (pyWhitespace.contains ·)).reverse

/-- Embedding of `hours_ago(ts)` (rss_digest.py lines 45-46):
`max(0, int((now - ts) // 3600))`, floor division. -/
def hours_ago (now ts : Int) : Nat := (max 0 ((now - ts).fdiv 3600)).toNat

/-- Python `set.add` under the insertion-ordered model of `set`. -/
def pySetAdd (s : List Str) (x : Str) : List Str := if s.contains x then s else s ++ [x]

/-- Python `set(l)` under the insertion-ordered model of `set`. -/
def pySetOfList (l : List Str) : List Str := l.foldl pySetAdd []

/-- Python `lst[-n:]`. -/
def takeLastN (n : Nat) (l : List Str) : List Str := l.drop (l.length - n)

/-- The per-entry body of the ingestion loop (rss_digest.py lines 211-244):
identity resolution with link fallback, duplicate and staleness rejection,
empty-title/link rejection, then classification and scoring. Returns the item
dict and its identity, or `none` when the entry is skipped. -/
def admitEntry (now minTs : Int) (feedName : Str) (seen : List Str) (e : Entry) :
    Option (Item × Str) :=
  match pyOr e.idAttr e.linkAttr with
  | none => none
  | some eid =>
    if eid.isEmpty then none
    else if seen.contains eid then none
    else if e.created < minTs then none
    else
      let title := pyStrip (e.titleAttr.getD [])
      let link := pyStrip (e.linkAttr.getD [])
      if title.isEmpty || link.isEmpty then none
      else
        let age_h := hours_ago now e.created
        let kind := classify feedName title
        let sc := compute_score feedName title age_h
        some ({ id := eid, created := e.created, age_hours := age_h, feed := feedName,
                kind := kind, title := title, url := link, score := sc.1, signals := sc.2,
                opening := suggested_opening kind title }, eid)

/-- The inner ingestion loop over one feed's entries, with the per-item cap
check `if len(collected) >= max_items: break` fired right after each append
(rss_digest.py lines 246-247). -/
def ingestEntries (now minTs : Int) (maxItems : Int) (feedName : Str) :
    List Entry → List Item → List Str → List Item × List Str
  | [], coll, seen => (coll, seen)
  | e :: es, coll, seen =>
    match admitEntry now minTs feedName seen e with
    | none => ingestEntries now minTs maxItems feedName es coll seen
    | some (item, eid) =>
      let coll' := coll ++ [item]
      let seen' := pySetAdd seen eid
      if maxItems ≤ (coll'.length : Int) then (coll', seen')
      else ingestEntries now minTs maxItems feedName es coll' seen'

/-- The outer ingestion loop over the configured feeds, each feed's entry list
truncated to its first 200 entries, with the per-source cap check
(rss_digest.py lines 209-249). -/
def ingestFeeds (now minTs : Int) (maxItems : Int) :
    List (Str × List Entry) → List Item → List Str → List Item × List Str
  | [], coll, seen => (coll, seen)
  | (fname, entries) :: rest, coll, seen =>
    let r := ingestEntries now minTs maxItems fname (entries.take 200) coll seen
    if maxItems ≤ (r.1.length : Int) then r
    else ingestFeeds now minTs maxItems rest r.1 r.2

/-- Comparison used by `collected.sort(key=lambda x: (x["score"], -x["age_hours"]),
reverse=True)`: `a` may stay before `b` iff key of `a` is ≥ key of `b` in the
lexicographic order on `(score, -age_hours)`. -/
def sortLe (a b : Item) : Bool :=
  decide (b.score < a.score) || (decide (a.score = b.score) && decide (a.age_hours ≤ b.age_hours))

/-- Embedding of the ranking step (rss_digest.py line 251): Python's stable
sort, descending on `(score, -age_hours)`. -/
def rankItems (l : List Item) : List Item := l.mergeSort sortLe

/-- The HIGH PRIORITY report section (rss_digest.py line 258). -/
def highPrioritySection (collected : List Item) : List Item :=
  (collected.filter fun x => decide (10 ≤ x.score) && decide (x.age_hours ≤ 12)).take 10

/-- The PAYPIG LEADS report section (rss_digest.py line 259). -/
def paypigSection (collected : List Item) : List Item :=
  (collected.filter fun x => x.kind == "PAYPIG").take 10

/-- The FINDOMME LEADS report section (rss_digest.py line 260). -/
def findommeSection (collected : List Item) : List Item :=
  (collected.filter fun x => x.kind == "FINDOMME").take 10

/-- The OTHER report section (rss_digest.py line 261): everything whose kind is
not PAYPIG and not FINDOMME. -/
def otherSection (collected : List Item) : List Item :=
  (collected.filter fun x => !(x.kind == "PAYPIG" || x.kind == "FINDOMME")).take 10

/-- The collected-and-ranked item list of a run, given the loaded state:
time-window computation (rss_digest.py lines 200-202), ingestion, and ranking. -/
def pipelineItems (env : Env) (feedData : List (Str × List Entry)) (now : Int)
    (st : StateJson) : List Item × List Str :=
  let seen0 := pySetOfList st.seen_ids
  let lastRun : Int := st.last_run_utc_ts.getD 0
  let minTs := max lastRun (now - env.backfillHours * 3600)
  let r := ingestFeeds now minTs env.maxItemsPerRun feedData [] seen0
  (rankItems r.1, r.2)

/-- Embedding of `run()` (rss_digest.py lines 196-520). External inputs are
explicit: `feedData` is what `feedparser` returns per configured feed, `now`
the current epoch second, and `emailOk` whether `send_email` succeeds. The
returned world carries the side effects that actually happened: the snapshot
file `queue_<ts>.json` is written right after ranking, before dispatch; state
is rewritten (seen ids trimmed to the hard-coded last 10000, last-run instant
set to now) only after `send_email` returns. An exception from `json.loads`
or `send_email` aborts the run at that point. -/
def run (env : Env) (feedData : List (Str × List Entry)) (now : Int) (emailOk : Bool)
    (w : World) : World × RunOutcome :=
  match load_state w.stateFile with
  | .error _ => (w, .loadError)
  | .ok st =>
    let p := pipelineItems env feedData now st
    let w1 : World := { w with outputFiles := w.outputFiles ++ [p.1] }
    if emailOk then
      let st' : StateJson := { seen_ids := takeLastN 10000 p.2, last_run_utc_ts := some now }
      ({ w1 with stateFile := some (.valid st') }, .ok)
    else (w1, .dispatchError)

/-! ## Concrete fixtures used by counterexamples and witnesses -/

/-- A minimal admissible entry with a one-character identity. -/
def mkEntry (c : Char) : Entry :=
  { idAttr := some [c], linkAttr := some (S "l"), titleAttr := some (S "t"), created := 0 }

/-- One feed with five admissible entries. -/
def capFeedData : List (Str × List Entry) :=
  [(S "F", [mkEntry 'a', mkEntry 'b', mkEntry 'c', mkEntry 'd', mkEntry 'e'])]

/-- A world whose state file is present but unparseable. -/
def corruptWorld : World := { stateFile := some .corrupt, outputFiles := [] }

/-- A collected item of category MEDIA, classified by the source classifier. -/
def mediaItem : Item :=
  { id := S "m1", created := 0, age_hours := 0, feed := S "Manga comics",
    kind := classify (S "Manga comics") (S "New findom manga recommendations"),
    title := S "New findom manga recommendations", url := S "u", score := 0,
    signals := [], opening := "" }

/-- 10001 pairwise-distinct identity strings. -/
def bigIds : List Str := (List.range 10001).map fun n => List.replicate n 'a'

/-- A world whose persisted seen set already holds 10001 identities. -/
def bigWorld : World := { stateFile := some (.valid ⟨bigIds, none⟩), outputFiles := [] }

/-! ## Substring matcher lemmas -/

theorem isPrefixB_iff (n h : Str) : isPrefixB n h = true ↔ n <+: h := by
  induction n generalizing h with
  | nil => simp [isPrefixB]
  | cons a as ih =>
    cases h with
    | nil => simp [isPrefixB]
    | cons b bs =>
      simp [isPrefixB, ih bs, List.cons_prefix_cons, beq_iff_eq]

theorem substrB_iff (n h : Str) : substrB n h = true ↔ n <:+: h := by
  induction h with
  | nil => simp [substrB, List.isEmpty_iff]
  | cons b bs ih =>
    simp [substrB, isPrefixB_iff, ih, List.infix_cons_iff]

theorem infix_snoc_iff (k t : Str) (c : Char) (hc : c ∉ k) (hk : k ≠ []) :
    k <:+: t ++ [c] ↔ k <:+: t := by
  constructor
  · rintro ⟨s, e, hse⟩
    rcases List.eq_nil_or_concat e with rfl | ⟨e₀, el, rfl⟩
    · rcases List.eq_nil_or_concat k with rfl | ⟨k₀, kl, rfl⟩
      · exact absurd rfl hk
      · exfalso
        apply hc
        have h2 : (s ++ k₀).concat kl = t.concat c := by
          simpa [List.concat_eq_append] using hse
        have := (List.concat_inj.mp h2).2
        simp [List.concat_eq_append, this]
    · refine ⟨s, e₀, ?_⟩
      have h2 : ((s ++ k ++ e₀)).concat el = t.concat c := by
        simpa [List.concat_eq_append] using hse
      exact (List.concat_inj.mp h2).1
  · rintro ⟨s, e, rfl⟩
    exact ⟨s, e ++ [c], by simp⟩

theorem substrB_snoc (k t : Str) (c : Char) (hc : c ∉ k) (hk : k ≠ []) :
    substrB k (t ++ [c]) = substrB k t := by
  rw [Bool.eq_iff_iff, substrB_iff, substrB_iff]
  exact infix_snoc_iff k t c hc hk

theorem substrB_snoc_self (t : Str) (c : Char) : substrB [c] (t ++ [c]) = true := by
  rw [substrB_iff]
  exact ⟨t, [], by simp⟩

theorem any_substrB_snoc (keys : List Str) (t : Str) (c : Char)
    (h : ∀ k ∈ keys, c ∉ k ∧ k ≠ []) :
    (keys.any fun k => substrB k (t ++ [c])) = keys.any fun k => substrB k t := by
  induction keys with
  | nil => rfl
  | cons k ks ih =>
    have hk := h k (by simp)
    simp only [List.any_cons, substrB_snoc k t c hk.1 hk.2,
      ih (fun x hx => h x (by simp [hx]))]

/-! ## Ingestion cap lemmas -/

theorem ingestEntries_length_le (now minTs maxItems : Int) (feedName : Str) :
    ∀ (es : List Entry) (coll : List Item) (seen : List Str),
      (coll.length : Int) < maxItems →
      (((ingestEntries now minTs maxItems feedName es coll seen).1.length : Int) ≤ maxItems) := by
  intro es
  induction es with
  | nil =>
    intro coll seen h
    simpa [ingestEntries] using le_of_lt h
  | cons e es ih =>
    intro coll seen h
    rw [ingestEntries]
    cases admitEntry now minTs feedName seen e with
    | none => exact ih coll seen h
    | some pr =>
      simp only
      split
      · simpa using by omega
      · rename_i hlt
        apply ih
        simpa using lt_of_not_ge hlt

theorem ingestFeeds_length_le (now minTs maxItems : Int) :
    ∀ (fd : List (Str × List Entry)) (coll : List Item) (seen : List Str),
      (coll.length : Int) < maxItems →
      (((ingestFeeds now minTs maxItems fd coll seen).1.length : Int) ≤ maxItems) := by
  intro fd
  induction fd with
  | nil =>
    intro coll seen h
    simpa [ingestFeeds] using le_of_lt h
  | cons p rest ih =>
    intro coll seen h
    rw [ingestFeeds]
    have hin := ingestEntries_length_le now minTs maxItems p.1 (p.2.take 200) coll seen h
    split
    · exact hin
    · rename_i hlt
      exact ih _ _ (lt_of_not_ge hlt)

/-! ## Seen-set model lemmas -/

theorem pySetAdd_of_not_mem (acc : List Str) (x : Str) (h : x ∉ acc) :
    pySetAdd acc x = acc ++ [x] := by
  simp [pySetAdd, h]

theorem foldl_pySetAdd_nodup :
    ∀ (l acc : List Str), (acc ++ l).Nodup → l.foldl pySetAdd acc = acc ++ l := by
  intro l
  induction l with
  | nil => intro acc _; simp
  | cons x xs ih =>
    intro acc h
    have hx : x ∉ acc := by
      intro hmem
      exact (List.disjoint_of_nodup_append h) hmem (by simp)
    have h' : ((acc ++ [x]) ++ xs).Nodup := by simpa using h
    calc (x :: xs).foldl pySetAdd acc
        = xs.foldl pySetAdd (pySetAdd acc x) := rfl
      _ = xs.foldl pySetAdd (acc ++ [x]) := by rw [pySetAdd_of_not_mem acc x hx]
      _ = (acc ++ [x]) ++ xs := ih (acc ++ [x]) h'
      _ = acc ++ x :: xs := by simp

theorem pySetOfList_of_nodup (l : List Str) (h : l.Nodup) : pySetOfList l = l := by
  simpa [pySetOfList] using foldl_pySetAdd_nodup l [] (by simpa using h)

theorem bigIds_nodup : bigIds.Nodup := by
  refine List.Nodup.map ?_ (List.nodup_range _)
  intro a b hab
  simpa using congrArg List.length hab

theorem bigIds_length : bigIds.length = 10001 := by simp [bigIds]

/-! ## Ranking comparison lemmas -/

theorem sortLe_trans (a b c : Item) :
    sortLe a b = true → sortLe b c = true → sortLe a c = true := by
  simp only [sortLe, Bool.or_eq_true, Bool.and_eq_true, decide_eq_true_eq]
  intro hab hbc
  rcases hab with h1 | ⟨h1, h1'⟩ <;> rcases hbc with h2 | ⟨h2, h2'⟩
  · exact Or.inl (by omega)
  · exact Or.inl (by omega)
  · exact Or.inl (by omega)
  · exact Or.inr ⟨by omega, by omega⟩

theorem sortLe_total (a b : Item) : (sortLe a b || sortLe b a) = true := by
  simp only [sortLe, Bool.or_eq_true, Bool.and_eq_true, decide_eq_true_eq]
  omega

/-! ## Claim theorems -/


/-- C1: if `send_email` raises, the run aborts without persisting state: the
state file after the failed run equals its value before the run, and the run
does not end in the committed (ok) outcome. -/
theorem dispatch_failure_preserves_state (env : Env) (feedData : List (Str × List Entry))
    (now : Int) (w : World) :
    (run env feedData now false w).1.stateFile = w.stateFile ∧
    (run env feedData now false w).2 ≠ RunOutcome.ok := by
  unfold run
  cases load_state w.stateFile <;> simp

/-- C2 counterexample: a present-but-corrupt state file is not treated as empty
state; `json.loads` raises and the run aborts at the Loading stage. -/
theorem corrupt_state_counterexample :
    load_state (some StateFileContent.corrupt) = Except.error "JSONDecodeError" ∧
    load_state (some StateFileContent.corrupt) ≠ Except.ok emptyStateJson ∧
    (run ⟨168, 120⟩ [] 0 true corruptWorld).2 = RunOutcome.loadError := by
  refine ⟨rfl, by simp [load_state, jsonLoads, emptyStateJson], rfl⟩

/-- C2 amended: a missing state file is treated as empty state and the run
proceeds past Loading, but a present-and-corrupt state file raises and the run
aborts at Loading with no side effects. -/
theorem load_state_amended (env : Env) (feedData : List (Str × List Entry)) (now : Int)
    (emailOk : Bool) (w : World) (h : w.stateFile = some StateFileContent.corrupt) :
    run env feedData now emailOk w = (w, RunOutcome.loadError) ∧
    load_state none = Except.ok emptyStateJson ∧
    (∀ w2 : World, w2.stateFile = none →
      (run env feedData now emailOk w2).2 ≠ RunOutcome.loadError) := by
  refine ⟨?_, rfl, ?_⟩
  · simp [run, h, load_state, jsonLoads]
  · intro w2 h2
    simp only [run, h2, load_state]
    cases emailOk <;> simp

/-- C2 witness: the amended statement evaluated at a concrete corrupt world. -/
theorem load_state_amended_witness :
    corruptWorld.stateFile = some StateFileContent.corrupt ∧
    (run ⟨168, 120⟩ [] 0 true corruptWorld = (corruptWorld, RunOutcome.loadError) ∧
      load_state none = Except.ok emptyStateJson ∧
      (∀ w2 : World, w2.stateFile = none →
        (run ⟨168, 120⟩ [] 0 true w2).2 ≠ RunOutcome.loadError)) :=
  ⟨rfl, load_state_amended ⟨168, 120⟩ [] 0 true corruptWorld rfl⟩

/-- C3 counterexample: one source holds five admissible entries; with the cap
at 3 the loop stops mid-source at exactly 3 items (with a loose cap the same
input yields all 5), so the cap is enforced after each item, not only after
a source's whole batch. -/
theorem cap_mid_source_counterexample :
    (ingestFeeds 0 0 3 capFeedData [] []).1.length = 3 ∧
    (ingestFeeds 0 0 100 capFeedData [] []).1.length = 5 := by
  constructor <;> rfl

/-- C3 amended: the per-run cap is checked after each item and after each
source, so for any positive cap the collected count never exceeds the cap. -/
theorem cap_never_exceeded (now minTs maxItems : Int) (feedData : List (Str × List Entry))
    (seen : List Str) (h : 1 ≤ maxItems) :
    ((ingestFeeds now minTs maxItems feedData [] seen).1.length : Int) ≤ maxItems :=
  ingestFeeds_length_le now minTs maxItems feedData [] seen (by simpa using h)

/-- C3 witness: the amended statement evaluated at the concrete five-entry
fixture with cap 3. -/
theorem cap_never_exceeded_witness :
    (1 : Int) ≤ 3 ∧ ((ingestFeeds 0 0 3 capFeedData [] []).1.length : Int) ≤ 3 :=
  ⟨by decide, cap_never_exceeded 0 0 3 capFeedData [] (by decide)⟩

/-- C5 counterexample: the title "starting" triggers both the `starting` and
`start` keyword rows, which share the label `start`, so the returned signals
list contains a duplicate label. -/
theorem signals_duplicate_counterexample :
    (compute_score (S "") (S "starting") 5).2 = ["start", "start", "recent"] ∧
    ¬ (compute_score (S "") (S "starting") 5).2.Nodup :=
  ⟨by decide, by decide⟩

/-- C5 amended: the signals list is capped at 6 entries and is the prefix of
the full first-triggered-order signal sequence (duplicate labels possible). -/
theorem signals_capped_ordered (feed_name title : Str) (age_h : Nat) :
    (compute_score feed_name title age_h).2.length ≤ 6 ∧
    (compute_score feed_name title age_h).2 <+: (computeScoreFull feed_name title age_h).2 := by
  constructor
  · simp [compute_score]
  · exact ⟨(computeScoreFull feed_name title age_h).2.drop 6, List.take_append_drop 6 _⟩

/-- C6 counterexample: a MEDIA-classified item lands in the OTHER section (and
in no category section), so OTHER is not restricted to items outside the named
categories and there is no dedicated MEDIA section. -/
theorem media_in_other_counterexample :
    mediaItem.kind = "MEDIA" ∧ otherSection [mediaItem] = [mediaItem] ∧
    paypigSection [mediaItem] = [] ∧ findommeSection [mediaItem] = [] :=
  ⟨by decide, by decide, by decide, by decide⟩

/-- C6 amended: the report has sections for PAYPIG and FINDOMME (each a
filter of the ranked list by category, capped at 10 and order-preserving), and
an OTHER section capped at 10 holding exactly the items whose category is
neither PAYPIG nor FINDOMME — including MEDIA items; the HIGH PRIORITY section
is also capped at 10. -/
theorem sections_amended (c : List Item) :
    (paypigSection c).length ≤ 10 ∧ (∀ x ∈ paypigSection c, x.kind = "PAYPIG") ∧
      (paypigSection c).Sublist c ∧
    (findommeSection c).length ≤ 10 ∧ (∀ x ∈ findommeSection c, x.kind = "FINDOMME") ∧
      (findommeSection c).Sublist c ∧
    (otherSection c).length ≤ 10 ∧
      (∀ x ∈ otherSection c, x.kind ≠ "PAYPIG" ∧ x.kind ≠ "FINDOMME") ∧
      (otherSection c).Sublist c ∧
    (highPrioritySection c).length ≤ 10 := by
  refine ⟨?_, ?_, ?_, ?_, ?_, ?_, ?_, ?_, ?_, ?_⟩
  · simp [paypigSection]
  · intro x hx
    have := List.mem_of_mem_take hx
    simpa using (List.mem_filter.mp this).2
  · exact (List.take_sublist _ _).trans (List.filter_sublist _)
  · simp [findommeSection]
  · intro x hx
    have := List.mem_of_mem_take hx
    simpa using (List.mem_filter.mp this).2
  · exact (List.take_sublist _ _).trans (List.filter_sublist _)
  · simp [otherSection]
  · intro x hx
    have := List.mem_of_mem_take hx
    have h2 := (List.mem_filter.mp this).2
    simp only [Bool.not_eq_true', Bool.or_eq_false_iff, beq_eq_false_iff_ne] at h2
    exact h2
  · exact (List.take_sublist _ _).trans (List.filter_sublist _)
  · simp [highPrioritySection]

/-- C9: the beginner-findomme scenario: category FINDOMME, score 17, the
signals question/beginner/start/how-do-i/target-feed/fresh, strictly positive
priority. -/
theorem beginner_findomme_scenario :
    classify (S "Beginner findomme") (S "How do I start as a beginner findomme?") = "FINDOMME" ∧
    compute_score (S "Beginner findomme") (S "How do I start as a beginner findomme?") 1 =
      (17, ["question", "beginner", "start", "how-do-i", "target-feed", "fresh"]) ∧
    "question" ∈ (compute_score (S "Beginner findomme")
      (S "How do I start as a beginner findomme?") 1).2 ∧
    0 < (compute_score (S "Beginner findomme")
      (S "How do I start as a beginner findomme?") 1).1 :=
  ⟨by decide, by decide, by decide, by decide⟩

/-- C10: when dispatch fails, the ranked snapshot has already been appended to
the output directory (it equals the ranked ingestion result), while the state
file is untouched and the run ends in the dispatch-error outcome. -/
theorem snapshot_durable_on_dispatch_failure (env : Env) (feedData : List (Str × List Entry))
    (now : Int) (w : World) (st : StateJson) (h : load_state w.stateFile = Except.ok st) :
    (run env feedData now false w).1.outputFiles =
      w.outputFiles ++ [(pipelineItems env feedData now st).1] ∧
    (pipelineItems env feedData now st).1 =
      rankItems (ingestFeeds now (max (st.last_run_utc_ts.getD 0)
        (now - env.backfillHours * 3600)) env.maxItemsPerRun feedData []
        (pySetOfList st.seen_ids)).1 ∧
    (run env feedData now false w).1.stateFile = w.stateFile ∧
    (run env feedData now false w).2 = RunOutcome.dispatchError := by
  unfold run
  rw [h]
  exact ⟨rfl, rfl, rfl, rfl⟩

/-- C10 witness: the snapshot-durability statement evaluated at a concrete
absent-state world and the five-entry fixture. -/
theorem snapshot_durable_witness :
    load_state (World.mk none []).stateFile = Except.ok emptyStateJson ∧
    ((run ⟨168, 120⟩ capFeedData 0 false (World.mk none [])).1.outputFiles =
      [] ++ [(pipelineItems ⟨168, 120⟩ capFeedData 0 emptyStateJson).1] ∧
    (pipelineItems ⟨168, 120⟩ capFeedData 0 emptyStateJson).1 =
      rankItems (ingestFeeds 0 (max (emptyStateJson.last_run_utc_ts.getD 0)
        (0 - (168 : Int) * 3600)) 120 capFeedData []
        (pySetOfList emptyStateJson.seen_ids)).1 ∧
    (run ⟨168, 120⟩ capFeedData 0 false (World.mk none [])).1.stateFile = none ∧
    (run ⟨168, 120⟩ capFeedData 0 false (World.mk none [])).2 = RunOutcome.dispatchError) :=
  ⟨rfl, snapshot_durable_on_dispatch_failure ⟨168, 120⟩ capFeedData 0 (World.mk none [])
    emptyStateJson rfl⟩

/-- C7: the ranking is a permutation of the collected items, sorted by
priority descending with ties by age ascending, and stable: the items with any
fixed (priority, age) key appear in the output exactly in input order. -/
theorem rank_sorted_and_stable (l : List Item) :
    (rankItems l).Perm l ∧
    (rankItems l).Pairwise
      (fun a b => b.score < a.score ∨ (a.score = b.score ∧ a.age_hours ≤ b.age_hours)) ∧
    ∀ (p : Int) (n : Nat),
      (rankItems l).filter (fun x => decide (x.score = p) && decide (x.age_hours = n)) =
      l.filter (fun x => decide (x.score = p) && decide (x.age_hours = n)) := by
  refine ⟨List.mergeSort_perm l sortLe, ?_, ?_⟩
  · have hs := List.sorted_mergeSort sortLe_trans sortLe_total l
    refine hs.imp ?_
    intro a b hab
    simpa [sortLe] using hab
  · intro p n
    set key : Item → Bool := fun x => decide (x.score = p) && decide (x.age_hours = n) with hkey
    have hpw : (l.filter key).Pairwise (fun a b => sortLe a b = true) := by
      refine List.pairwise_of_forall_mem_list ?_
      intro a ha b hb
      have ha2 := (List.mem_filter.mp ha).2
      have hb2 := (List.mem_filter.mp hb).2
      simp only [hkey, Bool.and_eq_true, decide_eq_true_eq] at ha2 hb2
      simp [sortLe, ha2.1, ha2.2, hb2.1, hb2.2]
    have hsub : (l.filter key).Sublist (rankItems l) :=
      List.sublist_mergeSort sortLe_trans sortLe_total hpw (List.filter_sublist l)
    have hff : (l.filter key).filter key = l.filter key :=
      List.filter_eq_self.mpr fun a ha => (List.mem_filter.mp ha).2
    have hsub2 : (l.filter key).Sublist ((rankItems l).filter key) := by
      have := List.Sublist.filter key hsub
      rwa [hff] at this
    have hperm : ((rankItems l).filter key).Perm (l.filter key) :=
      (List.mergeSort_perm l sortLe).filter key
    exact (hsub2.eq_of_length hperm.length_eq.symm).symm

/-- C4 counterexample: with 10001 persisted identities and no new items, two
different configurations both persist exactly the last 10000 identities (the
hard-coded bound) with the single oldest identity evicted: the bound does not
respond to any configuration. -/
theorem seen_bound_counterexample :
    (run ⟨24, 10⟩ [] 0 true bigWorld).1.stateFile =
      some (StateFileContent.valid ⟨bigIds.drop 1, some 0⟩) ∧
    (run ⟨9999, 77⟩ [] 0 true bigWorld).1.stateFile =
      some (StateFileContent.valid ⟨bigIds.drop 1, some 0⟩) ∧
    bigIds.length = 10001 ∧ (bigIds.drop 1).length = 10000 ∧
    bigIds.drop 1 <:+ bigIds := by
  have hset := pySetOfList_of_nodup bigIds bigIds_nodup
  have htake : takeLastN 10000 bigIds = bigIds.drop 1 := by
    simp [takeLastN, bigIds_length]
  have hrun : ∀ e : Env, (run e [] 0 true bigWorld).1.stateFile =
      some (StateFileContent.valid ⟨bigIds.drop 1, some 0⟩) := by
    intro e
    simp [run, bigWorld, load_state, jsonLoads, pipelineItems, ingestFeeds, hset, htake]
  refine ⟨hrun _, hrun _, bigIds_length, ?_, List.drop_suffix 1 bigIds⟩
  simp [bigIds_length]

/-- C4 amended: after a committed run the persisted seen collection is exactly
the trailing at-most-10000-entry suffix of the run's final seen sequence (the
ingestion result's seen set in enumeration order), so the oldest (front)
entries are the ones evicted, the bound is hard-coded at 10000, and no
eviction happens while the sequence is within the bound. -/
theorem seen_bound_amended (env : Env) (feedData : List (Str × List Entry)) (now : Int)
    (w : World) (st : StateJson) (h : load_state w.stateFile = Except.ok st) :
    (run env feedData now true w).1.stateFile =
      some (StateFileContent.valid
        ⟨takeLastN 10000 (pipelineItems env feedData now st).2, some now⟩) ∧
    takeLastN 10000 (pipelineItems env feedData now st).2 <:+
      (pipelineItems env feedData now st).2 ∧
    (takeLastN 10000 (pipelineItems env feedData now st).2).length ≤ 10000 ∧
    ((pipelineItems env feedData now st).2.length ≤ 10000 →
      takeLastN 10000 (pipelineItems env feedData now st).2 =
        (pipelineItems env feedData now st).2) := by
  refine ⟨?_, ?_, ?_, ?_⟩
  · unfold run
    rw [h]
    rfl
  · exact List.drop_suffix _ _
  · simp only [takeLastN, List.length_drop]
    omega
  · intro hlen
    simp only [takeLastN]
    have : (pipelineItems env feedData now st).2.length - 10000 = 0 := by omega
    simp [this]

/-- C4 witness: the amended bound statement evaluated at a concrete
absent-state world. -/
theorem seen_bound_amended_witness :
    load_state (World.mk none []).stateFile = Except.ok emptyStateJson ∧
    ((run ⟨168, 120⟩ [] 0 true (World.mk none [])).1.stateFile =
      some (StateFileContent.valid
        ⟨takeLastN 10000 (pipelineItems ⟨168, 120⟩ [] 0 emptyStateJson).2, some 0⟩) ∧
    takeLastN 10000 (pipelineItems ⟨168, 120⟩ [] 0 emptyStateJson).2 <:+
      (pipelineItems ⟨168, 120⟩ [] 0 emptyStateJson).2 ∧
    (takeLastN 10000 (pipelineItems ⟨168, 120⟩ [] 0 emptyStateJson).2).length ≤ 10000 ∧
    ((pipelineItems ⟨168, 120⟩ [] 0 emptyStateJson).2.length ≤ 10000 →
      takeLastN 10000 (pipelineItems ⟨168, 120⟩ [] 0 emptyStateJson).2 =
        (pipelineItems ⟨168, 120⟩ [] 0 emptyStateJson).2)) :=
  ⟨rfl, seen_bound_amended ⟨168, 120⟩ [] 0 (World.mk none []) emptyStateJson rfl⟩


theorem scoreStep_congr (t t' : Str) :
    ∀ (ks : List (Str × Int × String)),
      (∀ kw ∈ ks, substrB kw.1 t' = substrB kw.1 t) →
      ∀ init, ks.foldl (scoreStep t') init = ks.foldl (scoreStep t) init := by
  intro ks
  induction ks with
  | nil => intro _ _; rfl
  | cons kw ks ih =>
    intro h init
    simp only [List.foldl_cons]
    have hstep : scoreStep t' init kw = scoreStep t init kw := by
      simp [scoreStep, h kw (by simp)]
    rw [hstep]
    exact ih (fun k hk => h k (by simp [hk])) _

theorem scoreStep_shift (t : Str) :
    ∀ (ks : List (Str × Int × String)) (a : Int) (l : List String),
      ks.foldl (scoreStep t) (a, l) =
        (a + (ks.foldl (scoreStep t) ((0 : Int), ([] : List String))).1,
         l ++ (ks.foldl (scoreStep t) ((0 : Int), ([] : List String))).2) := by
  intro ks
  induction ks with
  | nil => intro a l; simp
  | cons kw ks ih =>
    intro a l
    simp only [List.foldl_cons, scoreStep]
    by_cases hc : substrB kw.1 t = true
    · simp only [hc, if_true]
      rw [ih (a + kw.2.1) (l ++ [kw.2.2]), ih (0 + kw.2.1) ([] ++ [kw.2.2])]
      simp [add_assoc]
    · simp only [Bool.not_eq_true] at hc
      simp only [hc, Bool.false_eq_true, if_false]
      exact ih a l

theorem scoreFeedStage_shift (f : Str) (d : Int) (q : String) (x : Int × List String) :
    scoreFeedStage f (d + x.1, q :: x.2) =
      (d + (scoreFeedStage f x).1, q :: (scoreFeedStage f x).2) := by
  unfold scoreFeedStage
  split_ifs <;> simp [add_assoc]

theorem scoreMegaStage_shift (t : Str) (d : Int) (q : String) (x : Int × List String) :
    scoreMegaStage t (d + x.1, q :: x.2) =
      (d + (scoreMegaStage t x).1, q :: (scoreMegaStage t x).2) := by
  unfold scoreMegaStage
  split_ifs <;> simp [add_assoc, sub_eq_add_neg]

theorem scoreAgeStage_shift (age_h : Nat) (d : Int) (q : String) (x : Int × List String) :
    scoreAgeStage age_h (d + x.1, q :: x.2) =
      (d + (scoreAgeStage age_h x).1, q :: (scoreAgeStage age_h x).2) := by
  unfold scoreAgeStage
  split_ifs <;> simp [add_assoc, sub_eq_add_neg]

theorem lowerStr_snoc_q (title : Str) :
    lowerStr (title ++ S "?") = lowerStr title ++ ['?'] := by
  simp [lowerStr, S]

theorem classify_congr (f t1 t2 : Str)
    (h1 : (findommeTitleKeys.any fun k => substrB k (lowerStr t1)) =
          findommeTitleKeys.any fun k => substrB k (lowerStr t2))
    (h2 : (paypigTitleKeys.any fun k => substrB k (lowerStr t1)) =
          paypigTitleKeys.any fun k => substrB k (lowerStr t2))
    (h3 : (mediaTitleKeys.any fun k => substrB k (lowerStr t1)) =
          mediaTitleKeys.any fun k => substrB k (lowerStr t2)) :
    classify f t1 = classify f t2 := by
  unfold classify
  simp only [h1, h2, h3]

/-- C8 -/
theorem question_mark_adds_four (feed_name title : Str) (age_h : Nat)
    (h : substrB (S "?") title = false) :
    (compute_score feed_name (title ++ S "?") age_h).1 =
      (compute_score feed_name title age_h).1 + 4 ∧
    (computeScoreFull feed_name (title ++ S "?") age_h).2 =
      "question" :: (computeScoreFull feed_name title age_h).2 ∧
    classify feed_name (title ++ S "?") = classify feed_name title := by
  have hlow := lowerStr_snoc_q title
  have hq1 : scoreQuestionStage (title ++ S "?") = (4, ["question"]) := by
    simp [scoreQuestionStage, substrB_snoc_self title '?', S]
  have hq0 : scoreQuestionStage title = (0, []) := by
    simp [scoreQuestionStage, h]
  have hkw : ∀ kw ∈ scoreKeywordTable,
      substrB kw.1 (lowerStr title ++ ['?']) = substrB kw.1 (lowerStr title) := by
    intro kw hkw
    have hside : ('?' ∉ kw.1) ∧ kw.1 ≠ [] := by
      revert kw
      decide
    exact substrB_snoc kw.1 (lowerStr title) '?' hside.1 hside.2
  have hmega : (megathreadKeys.any fun k => substrB k (lowerStr title ++ ['?'])) =
      megathreadKeys.any fun k => substrB k (lowerStr title) :=
    any_substrB_snoc megathreadKeys (lowerStr title) '?' (by decide)
  have main : computeScoreFull feed_name (title ++ S "?") age_h =
      ((computeScoreFull feed_name title age_h).1 + 4,
       "question" :: (computeScoreFull feed_name title age_h).2) := by
    unfold computeScoreFull
    rw [hlow, hq1, hq0]
    rw [scoreStep_congr (lowerStr title) (lowerStr title ++ ['?']) scoreKeywordTable hkw]
    rw [scoreStep_shift (lowerStr title) scoreKeywordTable 4 ["question"]]
    have hmega2 : ∀ x, scoreMegaStage (lowerStr title ++ ['?']) x =
        scoreMegaStage (lowerStr title) x := by
      intro x
      unfold scoreMegaStage
      rw [hmega]
    rw [hmega2]
    simp only [List.singleton_append]
    rw [scoreFeedStage_shift, scoreMegaStage_shift, scoreAgeStage_shift]
    simp [Int.add_comm]
  refine ⟨?_, ?_, ?_⟩
  · simp [compute_score, main]
  · simp [main]
  · apply classify_congr
    · rw [hlow]
      exact any_substrB_snoc findommeTitleKeys (lowerStr title) '?' (by decide)
    · rw [hlow]
      exact any_substrB_snoc paypigTitleKeys (lowerStr title) '?' (by decide)
    · rw [hlow]
      exact any_substrB_snoc mediaTitleKeys (lowerStr title) '?' (by decide)

/-- C8 witness -/
theorem question_mark_adds_four_witness :
    substrB (S "?") (S "need advice") = false ∧
    ((compute_score (S "Paypig") (S "need advice" ++ S "?") 3).1 =
      (compute_score (S "Paypig") (S "need advice") 3).1 + 4 ∧
    (computeScoreFull (S "Paypig") (S "need advice" ++ S "?") 3).2 =
      "question" :: (computeScoreFull (S "Paypig") (S "need advice") 3).2 ∧
    classify (S "Paypig") (S "need advice" ++ S "?") = classify (S "Paypig") (S "need advice")) :=
  ⟨by decide, question_mark_adds_four (S "Paypig") (S "need advice") 3 (by decide)⟩

end YMS
